import Mathlib

/-!
Verification of the particle-life hero animation of notes.noobymatze.io.

The definitions below are a shallow embedding of the TypeScript module
that drives the animation (the richest variant of the particle system).
Numbers that the source manipulates as IEEE doubles are modelled as real
numbers; the calls to Math.random are modelled as oracle inputs that are
assumed to lie in [0, 1); module-scoped mutable state is modelled as
explicit state records, with each mutating function becoming a function
from state to state.
-/

namespace ParticleLifeSim

/-! ## Physics constants (from the Constants section of the source) -/

/-- Interaction radius: particles sense neighbors within 80px. -/
def FORCE_RANGE : ℝ := 80

/-- Velocity damping applied every frame. -/
def FRICTION : ℝ := 0.88

/-- Maximum force magnitude for particle life interactions. -/
def MAX_FORCE : ℝ := 180

/-- Velocity cap. -/
def MAX_SPEED : ℝ := 150

/-- Close-range repulsion radius. -/
def REPULSION_RANGE : ℝ := 8

/-- Number of particle types (and matrix dimension). -/
def PARTICLE_TYPES : ℕ := 12

/-- Grid cell size, equal to the interaction radius. -/
def CELL_SIZE : ℝ := FORCE_RANGE

/-! ## Particle data model -/

/-- A particle of the simulation.  Optional fields of the source interface
(targetX, targetY, formationSpeed) are modelled as Option. -/
structure ParticleLife where
  x : ℝ
  y : ℝ
  vx : ℝ
  vy : ℝ
  type : ℕ
  targetX : Option ℝ := none
  targetY : Option ℝ := none
  formationSpeed : Option ℝ := none

/-- Squared Euclidean distance between two particles, as computed by
calculateForce (dx*dx + dy*dy with dx = p2.x - p1.x). -/
def distSq (p1 p2 : ParticleLife) : ℝ :=
  (p2.x - p1.x) * (p2.x - p1.x) + (p2.y - p1.y) * (p2.y - p1.y)

/-- Euclidean distance between two particles. -/
noncomputable def euclidDist (p1 p2 : ParticleLife) : ℝ :=
  Real.sqrt (distSq p1 p2)

/-! ## Force engine -/

/-- Attraction/repulsion force between two particles (calculateForce in the
source).  The attraction matrix lookup attractionMatrix[p1.type][p2.type]
is modelled by the function A. -/
noncomputable def calculateForce (A : ℕ → ℕ → ℝ) (p1 p2 : ParticleLife) : ℝ × ℝ :=
  let dx := p2.x - p1.x
  let dy := p2.y - p1.y
  let dsq := dx * dx + dy * dy
  if dsq < 0.01 then (0, 0)
  else if dsq > FORCE_RANGE * FORCE_RANGE then (0, 0)
  else
    let dist := Real.sqrt dsq
    if dist < REPULSION_RANGE then
      let repulsionForce := (REPULSION_RANGE - dist) / REPULSION_RANGE * 50
      (-(dx / dist) * repulsionForce, -(dy / dist) * repulsionForce)
    else
      let attraction := A p1.type p2.type
      let forceMagnitude := attraction * (1 - dist / FORCE_RANGE) * MAX_FORCE
      ((dx / dist) * forceMagnitude, (dy / dist) * forceMagnitude)

/-- Euclidean norm of a force vector. -/
noncomputable def forceNorm (f : ℝ × ℝ) : ℝ :=
  Real.sqrt (f.1 * f.1 + f.2 * f.2)

/-! ## Physics integration of updateParticle -/

/-- Velocity update of updateParticle: apply the accumulated total force,
the per-frame friction factor, and the MAX_SPEED clamp.  The total force
accumulated in steps 1-4 of the source enters as the pair (Fx, Fy); any
real vector can arise there. -/
noncomputable def stepVelocity (vx vy Fx Fy dt : ℝ) : ℝ × ℝ :=
  let vx1 := (vx + Fx * dt) * FRICTION
  let vy1 := (vy + Fy * dt) * FRICTION
  let speed := Real.sqrt (vx1 * vx1 + vy1 * vy1)
  if speed > MAX_SPEED then (vx1 * (MAX_SPEED / speed), vy1 * (MAX_SPEED / speed))
  else (vx1, vy1)

/-- Toroidal wrap of one coordinate: the pair of ifs at the end of
updateParticle (the second if reads the value already updated by the
first). -/
noncomputable def wrapCoord (w x : ℝ) : ℝ :=
  let x1 := if x < 0 then x + w else x
  if x1 > w then x1 - w else x1

/-- updateParticle: velocity update with friction and speed clamp,
position integration, and toroidal wrap of both coordinates. -/
noncomputable def updateParticle (p : ParticleLife)
    (Fx Fy dt simWidth simHeight : ℝ) : ParticleLife :=
  let v := stepVelocity p.vx p.vy Fx Fy dt
  { p with
      vx := v.1
      vy := v.2
      x := wrapCoord simWidth (p.x + v.1 * dt)
      y := wrapCoord simHeight (p.y + v.2 * dt) }

/-! ## Text formation targets and formation force -/

/-- A sampled text target point (element of the textTargets array). -/
structure TextTarget where
  x : ℝ
  y : ℝ
  type : ℕ

/-- assignTargetsToParticles: with an empty target list the function
returns early and changes nothing; otherwise each particle receives the
target at its index modulo the target count, plus a fresh random
formation speed 0.5 + Math.random() (the draw for particle i is modelled
by rand i). -/
def assignTargetsToParticles (targets : List TextTarget) (rand : ℕ → ℝ)
    (particles : List ParticleLife) : List ParticleLife :=
  if h : targets.length = 0 then particles
  else
    particles.mapIdx (fun i p =>
      let target := targets.get ⟨i % targets.length, Nat.mod_lt _ (Nat.pos_of_ne_zero h)⟩
      { p with
          targetX := some target.x
          targetY := some target.y
          formationSpeed := some (0.5 + rand i) })

/-- getFormationForce: zero when the blend strength is not positive or the
particle has no target or it is within one unit of its target; otherwise
a pull of magnitude 2500 times strength times the formation speed
multiplier, directed toward the target.  The JS fallback
p.formationSpeed || 1.0 yields 1 when the field is absent (or zero). -/
noncomputable def getFormationForce (p : ParticleLife) (strength : ℝ) : ℝ × ℝ :=
  match p.targetX, p.targetY with
  | some tx, some ty =>
      if strength ≤ 0 then (0, 0)
      else
        let dx := tx - p.x
        let dy := ty - p.y
        let dist := Real.sqrt (dx * dx + dy * dy)
        if dist ≤ 1 then (0, 0)
        else
          let speedMultiplier :=
            match p.formationSpeed with
            | none => 1
            | some s => if s = 0 then 1 else s
          let attractionForce := 2500 * strength * speedMultiplier
          ((dx / dist) * attractionForce, (dy / dist) * attractionForce)
  | _, _ => (0, 0)

/-! ## Spatial partitioning grid -/

/-- JS positive modulus ((a % n) + n) % n, with the truncating JS %
operator modelled by Int.tmod. -/
def jsPosMod (a n : ℤ) : ℤ := (Int.tmod a n + n).tmod n

/-- Cell coordinate along one axis, as computed identically in buildGrid
and forEachNearbyParticle. -/
noncomputable def cellCoord (cells : ℤ) (pos : ℝ) : ℤ :=
  jsPosMod ⌊pos / CELL_SIZE⌋ cells

/-- Flat grid index of a particle (cellY * gridCols + cellX), as used by
buildGrid to choose the bucket a particle is pushed into. -/
noncomputable def cellIndex (gridCols gridRows : ℤ) (p : ParticleLife) : ℤ :=
  cellCoord gridRows p.y * gridCols + cellCoord gridCols p.x

/-- The bucket of particles that buildGrid collects at a flat index. -/
noncomputable def gridBucket (gridCols gridRows : ℤ)
    (particles : List ParticleLife) (idx : ℤ) : List ParticleLife :=
  particles.filter (fun q => decide (cellIndex gridCols gridRows q = idx))

/-- The flat indices of the 3 by 3 block of cells that
forEachNearbyParticle visits around a particle, with toroidal cell-index
wrap. -/
noncomputable def nearbyCellIndices (gridCols gridRows : ℤ) (p : ParticleLife) : List ℤ :=
  let cellX := cellCoord gridCols p.x
  let cellY := cellCoord gridRows p.y
  ([-1, 0, 1] : List ℤ).flatMap (fun dx =>
    ([-1, 0, 1] : List ℤ).map (fun dy =>
      (cellY + dy + gridRows).tmod gridRows * gridCols + (cellX + dx + gridCols).tmod gridCols))

/-- All particles on which forEachNearbyParticle invokes its callback
after buildGrid: the particles of the nine visited buckets. -/
noncomputable def nearbyParticles (gridCols gridRows : ℤ)
    (particles : List ParticleLife) (p : ParticleLife) : List ParticleLife :=
  (nearbyCellIndices gridCols gridRows p).flatMap (gridBucket gridCols gridRows particles)

/-- Grid dimension along one axis, from resize:
max(1, ceil(sim / CELL_SIZE)); instantiated with simWidth for gridCols
and with simHeight for gridRows. -/
noncomputable def gridDim (sim : ℝ) : ℤ := max 1 ⌈sim / CELL_SIZE⌉

/-! ## Mode state machine -/

/-- The animation phases (enum AnimationMode in the source). -/
inductive AnimationMode where
  | EXPLOSION
  | PARTICLE_LIFE
  | FORMING
  | HOLDING
  | BALLOON_RISING
  | DISSOLVING
deriving DecidableEq

/-- The introduction messages, shown once in sequence. -/
def MESSAGES : List String :=
  [ "Hi there,\nI am Matthias"
  , "a software\ndeveloper,"
  , "a bikepacker\n🚲"
  , "who likes\nBadminton 🏸"
  , "and creative\nthings."
  , "These are\nmy notes."
  , "Enjoy!" ]

/-- Index of the message where the balloon animation plays. -/
def CREATIVE_MESSAGE_INDEX : ℕ := 4

/-- Animation timing constants, in seconds (the TIMING record). -/
def TIMING_explosion : ℚ := 2

/-- TIMING.particleLife. -/
def TIMING_particleLife : ℚ := 10

/-- TIMING.particleLifeInfinite. -/
def TIMING_particleLifeInfinite : ℚ := 20

/-- TIMING.forming. -/
def TIMING_forming : ℚ := 3

/-- TIMING.holding. -/
def TIMING_holding : ℚ := 8

/-- TIMING.holdingFirst. -/
def TIMING_holdingFirst : ℚ := 3

/-- TIMING.holdingCreative. -/
def TIMING_holdingCreative : ℚ := 6

/-- TIMING.balloonRising (= BALLOON.riseDuration). -/
def TIMING_balloonRising : ℚ := 4

/-- TIMING.dissolving. -/
def TIMING_dissolving : ℚ := 2

/-- The module-scoped animation state read and written by the mode state
machine: currentMode, currentMessageIndex, isFirstMessage, modeStartTime
(milliseconds), attractionMatrix and textTargets.  Particle bookkeeping
(the particle array, balloon recruit set) is not read by the transition
logic and is not part of this record. -/
structure MachineState where
  mode : AnimationMode
  currentMessageIndex : ℕ
  isFirstMessage : Bool
  modeStartTime : ℚ
  attractionMatrix : List (List ℚ)
  textTargets : List (ℚ × ℚ × ℕ)
deriving DecidableEq

/-- Elapsed time in the current animation mode, in seconds
(getModeElapsedTime in the source). -/
def getModeElapsedTime (modeStartTime now : ℚ) : ℚ :=
  (now - modeStartTime) / 1000

/-- Duration of a given animation mode (getModeDuration in the source);
the switch covers the whole enum, the default branch returning null is
dead. -/
def getModeDuration (s : MachineState) : Option ℚ :=
  match s.mode with
  | .EXPLOSION => some TIMING_explosion
  | .PARTICLE_LIFE =>
      some (if MESSAGES.length ≤ s.currentMessageIndex
            then TIMING_particleLifeInfinite else TIMING_particleLife)
  | .FORMING => some TIMING_forming
  | .HOLDING =>
      some (if s.isFirstMessage then TIMING_holdingFirst
            else if s.currentMessageIndex = CREATIVE_MESSAGE_INDEX then TIMING_holdingCreative
            else TIMING_holding)
  | .BALLOON_RISING => some TIMING_balloonRising
  | .DISSOLVING => some TIMING_dissolving

/-- Enter a new animation mode (enterMode in the source).  Entering
FORMING with a message left regenerates the text targets (the result of
generateTextTargets is passed in as newTargets); entering PARTICLE_LIFE
regenerates the attraction matrix (the result of the random generator is
passed in as fresh). -/
def enterMode (fresh : List (List ℚ)) (newTargets : List (ℚ × ℚ × ℕ))
    (mode : AnimationMode) (now : ℚ) (s : MachineState) : MachineState :=
  let s1 := { s with mode := mode, modeStartTime := now }
  let s2 := if mode = .FORMING ∧ s.currentMessageIndex < MESSAGES.length
            then { s1 with textTargets := newTargets } else s1
  if mode = .PARTICLE_LIFE then { s2 with attractionMatrix := fresh } else s2

/-- Advance the mode state machine by one frame check (advanceMode in the
source).  In the source the HOLDING case distinguishes
currentMessageIndex < MESSAGES.length - 1 from the last message, but both
branches select DISSOLVING and set isFirstMessage to false; they are
rendered here as the single else branch. -/
def advanceMode (fresh : List (List ℚ)) (newTargets : List (ℚ × ℚ × ℕ))
    (now : ℚ) (s : MachineState) : MachineState :=
  match getModeDuration s with
  | none => s
  | some duration =>
    if getModeElapsedTime s.modeStartTime now < duration then s
    else
      match s.mode with
      | .EXPLOSION => enterMode fresh newTargets .PARTICLE_LIFE now s
      | .PARTICLE_LIFE =>
          if s.currentMessageIndex < MESSAGES.length then
            enterMode fresh newTargets .FORMING now s
          else
            { s with attractionMatrix := fresh, modeStartTime := now }
      | .FORMING => enterMode fresh newTargets .HOLDING now s
      | .HOLDING =>
          if s.currentMessageIndex = CREATIVE_MESSAGE_INDEX then
            enterMode fresh newTargets .BALLOON_RISING now { s with isFirstMessage := false }
          else
            enterMode fresh newTargets .DISSOLVING now { s with isFirstMessage := false }
      | .BALLOON_RISING => enterMode fresh newTargets .DISSOLVING now s
      | .DISSOLVING =>
          enterMode fresh newTargets .PARTICLE_LIFE now
            { s with currentMessageIndex := s.currentMessageIndex + 1 }

/-- One frame input to the machine: the fresh attraction matrix and text
targets the random generators would produce this frame, and the frame
timestamp. -/
structure StepInput where
  fresh : List (List ℚ)
  targets : List (ℚ × ℚ × ℕ)
  now : ℚ

/-- Iterated advanceMode over a list of frame inputs. -/
def stepsFrom (s : MachineState) : List StepInput → MachineState
  | [] => s
  | i :: rest => stepsFrom (advanceMode i.fresh i.targets i.now s) rest

/-- States reachable from the initial state of the animation
(initializeParticles enters HOLDING with currentMessageIndex 0 and
isFirstMessage true) by advanceMode steps. -/
inductive Reachable : MachineState → Prop where
  | init : ∀ (t : ℚ) (m : List (List ℚ)) (tg : List (ℚ × ℚ × ℕ)),
      Reachable ⟨.HOLDING, 0, true, t, m, tg⟩
  | step : ∀ (s : MachineState) (i : StepInput), Reachable s →
      Reachable (advanceMode i.fresh i.targets i.now s)

/-- The initial machine state used in the concrete witnesses. -/
def initState : MachineState := ⟨.HOLDING, 0, true, 0, [], []⟩

/-- Frame timestamps at which each intro phase expires, one step per
phase, through the whole message sequence up to the entry into the
infinite PARTICLE_LIFE tail. -/
def introTrace : List StepInput :=
  [ 3000, 5000, 15000, 18000, 26000, 28000, 38000, 41000, 49000, 51000
  , 61000, 64000, 72000, 74000, 84000, 87000, 93000, 97000, 99000, 109000
  , 112000, 120000, 122000, 132000, 135000, 143000, 145000
  ].map (fun t => ⟨[], [], (t : ℚ)⟩)

/-! ## Attraction matrix generator -/

/-- The preset palette of generateAttractionMatrix, in source order. -/
def PRESETS : List String :=
  [ "random", "planets", "snakes", "chaos", "balanced", "spirals", "clusters" ]

/-- One matrix entry for the selected preset and particle pair (i, j).
Each Math.random() call of the source is modelled by one component of the
oracle rand, indexed by cell (and by call within the cell for the chaos
preset, which draws twice); the final else covers the random preset and
the default branch of the switch. -/
def matrixEntry (preset : String) (rand : ℕ → ℚ) (i j : ℕ) : ℚ :=
  if preset = "planets" then
    if i = j then -0.5
    else if ((i : ℤ) - j).natAbs = 1 then 0.8
    else -0.2
  else if preset = "snakes" then
    if i = j then -0.3
    else if (i + 1) % PARTICLE_TYPES = j then 0.9
    else if (j + 1) % PARTICLE_TYPES = i then -0.7
    else 0
  else if preset = "chaos" then
    (if rand (2 * (i * PARTICLE_TYPES + j)) > 0.5 then 1 else -1) *
      (0.5 + rand (2 * (i * PARTICLE_TYPES + j) + 1) * 0.5)
  else if preset = "balanced" then
    (rand (i * PARTICLE_TYPES + j) - 0.5) * 0.6
  else if preset = "spirals" then
    let diff := (j + PARTICLE_TYPES - i) % PARTICLE_TYPES
    if diff < PARTICLE_TYPES / 2 then
      0.6 * (1 - (diff : ℚ) / ((PARTICLE_TYPES : ℚ) / 2))
    else -0.4
  else if preset = "clusters" then
    if i = j then 0.5
    else if ((i : ℤ) - j).natAbs ≤ 2 then 0.3
    else -0.4
  else
    rand (i * PARTICLE_TYPES + j) * 2 - 1

/-- Generate a random attraction matrix (generateAttractionMatrix in the
source).  The preset is picked by flooring presetDraw scaled by the
palette size (the Math.random() draw for the preset); an out-of-range
index yields an undefined preset, which the switch default sends to the
random formula, modelled here by the empty-string fallback of getD. -/
def generateAttractionMatrix (presetDraw : ℚ) (rand : ℕ → ℚ) : List (List ℚ) :=
  let preset := PRESETS.getD (⌊presetDraw * (PRESETS.length : ℚ)⌋).toNat ""
  (List.range PARTICLE_TYPES).map (fun i =>
    (List.range PARTICLE_TYPES).map (fun j => matrixEntry preset rand i j))

/-! ## Loop driver timing state (pause bookkeeping and progress) -/

/-- The module-scoped timing state of the render loop: modeStartTime,
animationStartTime, lastTime, pausedTime, isPaused, lastPauseStart (all
times in milliseconds). -/
structure LoopTiming where
  modeStartTime : ℚ
  animationStartTime : ℚ
  lastTime : ℚ
  pausedTime : ℚ
  isPaused : Bool
  lastPauseStart : ℚ
deriving DecidableEq

/-- The document.hidden branch at the top of render: mark the loop paused
and record when the pause started (handleVisibilityChange writes the same
two fields). -/
def renderHiddenStep (now : ℚ) (s : LoopTiming) : LoopTiming :=
  if s.isPaused then s else { s with isPaused := true, lastPauseStart := now }

/-- The resume bookkeeping at the top of render when the document is
visible again: the accumulated pause duration is added to pausedTime,
modeStartTime, animationStartTime and lastTime, and the pause flag is
cleared. -/
def renderResumeStep (now : ℚ) (s : LoopTiming) : LoopTiming :=
  if s.isPaused then
    { s with
        pausedTime := s.pausedTime + (now - s.lastPauseStart),
        modeStartTime := s.modeStartTime + (now - s.lastPauseStart),
        animationStartTime := s.animationStartTime + (now - s.lastPauseStart),
        lastTime := s.lastTime + (now - s.lastPauseStart),
        isPaused := false }
  else s

/-- Pause-adjusted elapsed time since animation start, in milliseconds
(getElapsedMs in the source). -/
def getElapsedMs (s : LoopTiming) (now : ℚ) : ℚ :=
  let currentPausedTime :=
    if s.isPaused then s.pausedTime + (now - s.lastPauseStart) else s.pausedTime
  now - s.animationStartTime - currentPausedTime

/-- Total duration of the intro sequence in milliseconds
(getTotalDurationMs in the source). -/
def getTotalDurationMs : ℚ :=
  let firstMessageCycle :=
    TIMING_holdingFirst + TIMING_dissolving + TIMING_particleLife + TIMING_forming
  let normalMessageCycle :=
    TIMING_holding + TIMING_dissolving + TIMING_particleLife + TIMING_forming
  let creativeMessageCycle :=
    TIMING_holdingCreative + TIMING_balloonRising + TIMING_dissolving +
      TIMING_particleLife + TIMING_forming
  let untilEnjoy :=
    firstMessageCycle + normalMessageCycle * 3 + creativeMessageCycle + normalMessageCycle
  (untilEnjoy + TIMING_holding) * 1000

/-- Overall intro progress in [0, 1] (getProgress in the source). -/
def getProgress (s : LoopTiming) (now : ℚ) : ℚ :=
  min 1 (getElapsedMs s now / getTotalDurationMs)

/-- Whether the intro sequence has completed (isReady in the source). -/
def isReady (s : LoopTiming) (now : ℚ) : Bool :=
  if getElapsedMs s now ≥ getTotalDurationMs then true else false

/-- The fixed phase durations of the one-time intro sequence in order, up
to and including the final message's hold, as the spec describes the
schedule: message 0 holds for holdingFirst, messages 1-3 and 5 for
holding, message 4 for holdingCreative followed by the balloon, each
non-final message followed by dissolving, particle life and forming, and
the final message (index 6) only held.  This is the spec-side schedule
against which getTotalDurationMs is compared. -/
def introScheduleDurations : List ℚ :=
  [ TIMING_holdingFirst, TIMING_dissolving, TIMING_particleLife, TIMING_forming
  , TIMING_holding, TIMING_dissolving, TIMING_particleLife, TIMING_forming
  , TIMING_holding, TIMING_dissolving, TIMING_particleLife, TIMING_forming
  , TIMING_holding, TIMING_dissolving, TIMING_particleLife, TIMING_forming
  , TIMING_holdingCreative, TIMING_balloonRising, TIMING_dissolving
  , TIMING_particleLife, TIMING_forming
  , TIMING_holding, TIMING_dissolving, TIMING_particleLife, TIMING_forming
  , TIMING_holding ]

/-! ## Claim C1 -/

/-- C1: for every pair of particles whose Euclidean distance exceeds the
interaction radius (80 units), calculateForce returns exactly the zero
vector, for every particle type pair and every attraction matrix. -/
theorem calculateForce_zero_beyond_interaction_radius
    (A : ℕ → ℕ → ℝ) (p1 p2 : ParticleLife)
    (h : FORCE_RANGE < euclidDist p1 p2) :
    calculateForce A p1 p2 = (0, 0) := by
  have hnn : (0 : ℝ) ≤ distSq p1 p2 := by
    unfold distSq; exact add_nonneg (mul_self_nonneg _) (mul_self_nonneg _)
  have h80 : (80 : ℝ) < Real.sqrt (distSq p1 p2) := by
    simpa [euclidDist, FORCE_RANGE] using h
  have hgt : FORCE_RANGE * FORCE_RANGE < distSq p1 p2 := by
    have h2 : (80 : ℝ) ^ 2 < distSq p1 p2 :=
      (Real.lt_sqrt (by norm_num : (0:ℝ) ≤ 80)).mp h80
    rw [FORCE_RANGE]; nlinarith [h2]
  have hnot : ¬ (distSq p1 p2 < 0.01) := by
    rw [FORCE_RANGE] at hgt; nlinarith
  unfold calculateForce
  simp only [distSq] at hgt hnot
  rw [if_neg hnot, if_pos hgt]

/-- The distance computed by calculateForce is symmetric in the two particles. -/
lemma distSq_comm (p1 p2 : ParticleLife) : distSq p2 p1 = distSq p1 p2 := by
  unfold distSq; ring

/-- In the short-range repulsion band (0.01 ≤ d² and d < REPULSION_RANGE),
calculateForce takes the repulsion branch and returns the closed-form
repulsion vector. -/
lemma calculateForce_eq_repulsion (A : ℕ → ℕ → ℝ) (p1 p2 : ParticleLife)
    (h1 : 0.01 ≤ distSq p1 p2) (h2 : euclidDist p1 p2 < REPULSION_RANGE) :
    calculateForce A p1 p2 =
      (-((p2.x - p1.x) / euclidDist p1 p2) *
         ((REPULSION_RANGE - euclidDist p1 p2) / REPULSION_RANGE * 50),
       -((p2.y - p1.y) / euclidDist p1 p2) *
         ((REPULSION_RANGE - euclidDist p1 p2) / REPULSION_RANGE * 50)) := by
  have hnn : (0 : ℝ) ≤ distSq p1 p2 := le_trans (by norm_num) h1
  have hdn : (0 : ℝ) ≤ euclidDist p1 p2 := Real.sqrt_nonneg _
  have hsq : euclidDist p1 p2 ^ 2 = distSq p1 p2 := Real.sq_sqrt hnn
  have hlt64 : distSq p1 p2 < 64 := by
    rw [← hsq]
    have h8 : euclidDist p1 p2 < 8 := by simpa [REPULSION_RANGE] using h2
    nlinarith
  have hng1 : ¬ (distSq p1 p2 < 0.01) := not_lt.mpr h1
  have hng2 : ¬ (distSq p1 p2 > FORCE_RANGE * FORCE_RANGE) := by
    rw [FORCE_RANGE]; push_neg; nlinarith
  simp only [calculateForce]
  rw [show (p2.x - p1.x) * (p2.x - p1.x) + (p2.y - p1.y) * (p2.y - p1.y) = distSq p1 p2 from rfl]
  rw [if_neg hng1, if_neg hng2,
    show Real.sqrt (distSq p1 p2) = euclidDist p1 p2 from rfl, if_pos h2]

/-! ## Claim C2 (corrected) -/

/-- Counterexample to C2 as stated: at distance 1/20 < REPULSION_RANGE the
two particles are inside the d² < 0.01 coincidence guard, so the force is
the zero vector; its magnitude 0 is not in (0, 50] and it is not strictly
separating. -/
theorem repulsion_band_claim_counterexample :
    euclidDist ⟨0, 0, 0, 0, 0, none, none, none⟩ ⟨1/20, 0, 0, 0, 3, none, none, none⟩ <
      REPULSION_RANGE ∧
    calculateForce (fun _ _ => 1) ⟨0, 0, 0, 0, 0, none, none, none⟩
      ⟨1/20, 0, 0, 0, 3, none, none, none⟩ = (0, 0) ∧
    ¬ (0 < forceNorm (calculateForce (fun _ _ => 1) ⟨0, 0, 0, 0, 0, none, none, none⟩
      ⟨1/20, 0, 0, 0, 3, none, none, none⟩)) := by
  have hdsq : distSq ⟨0, 0, 0, 0, 0, none, none, none⟩
      ⟨1/20, 0, 0, 0, 3, none, none, none⟩ = 1/400 := by
    unfold distSq; norm_num
  have hd : euclidDist ⟨0, 0, 0, 0, 0, none, none, none⟩
      ⟨1/20, 0, 0, 0, 3, none, none, none⟩ = 1/20 := by
    unfold euclidDist
    rw [hdsq, show (1/400 : ℝ) = (1/20) ^ 2 by norm_num,
      Real.sqrt_sq (by norm_num : (0:ℝ) ≤ 1/20)]
  have hf : calculateForce (fun _ _ => 1) ⟨0, 0, 0, 0, 0, none, none, none⟩
      ⟨1/20, 0, 0, 0, 3, none, none, none⟩ = (0, 0) := by
    simp only [calculateForce]
    norm_num
  refine ⟨by rw [hd, REPULSION_RANGE]; norm_num, hf, ?_⟩
  rw [hf]
  simp [forceNorm]

/-- C2 amended: for particles inside the repulsion band but outside the
coincidence guard (0.01 ≤ d² and d < 8), the force is a strictly positive
multiple of the vector from the neighbor toward the particle, and its
magnitude lies in (0, 50], regardless of types and of the matrix. -/
theorem repulsion_band_force_separating (A : ℕ → ℕ → ℝ) (p1 p2 : ParticleLife)
    (h1 : 0.01 ≤ distSq p1 p2) (h2 : euclidDist p1 p2 < REPULSION_RANGE) :
    (∃ c : ℝ, 0 < c ∧
      calculateForce A p1 p2 = (c * (p1.x - p2.x), c * (p1.y - p2.y))) ∧
    0 < forceNorm (calculateForce A p1 p2) ∧
    forceNorm (calculateForce A p1 p2) ≤ 50 := by
  have hnn : (0 : ℝ) ≤ distSq p1 p2 := le_trans (by norm_num) h1
  have hdpos : 0 < euclidDist p1 p2 :=
    Real.sqrt_pos.mpr (lt_of_lt_of_le (by norm_num) h1)
  have hsq : euclidDist p1 p2 ^ 2 = distSq p1 p2 := Real.sq_sqrt hnn
  have h8 : euclidDist p1 p2 < 8 := by simpa [REPULSION_RANGE] using h2
  have hrw := calculateForce_eq_repulsion A p1 p2 h1 h2
  simp only [REPULSION_RANGE] at hrw
  set d := euclidDist p1 p2 with hdef
  set rf : ℝ := (8 - d) / 8 * 50 with hrfdef
  have hrfpos : 0 < rf := by rw [hrfdef]; linarith
  have hrfle : rf ≤ 50 := by rw [hrfdef]; have := hdpos; linarith
  have hds : (p2.x - p1.x) * (p2.x - p1.x) + (p2.y - p1.y) * (p2.y - p1.y) = d ^ 2 := by
    rw [hsq]; rfl
  have hmag : forceNorm (calculateForce A p1 p2) = rf := by
    rw [hrw]
    unfold forceNorm
    have key : -((p2.x - p1.x) / d) * rf * (-((p2.x - p1.x) / d) * rf) +
        -((p2.y - p1.y) / d) * rf * (-((p2.y - p1.y) / d) * rf) = rf ^ 2 := by
      have hdne : d ≠ 0 := ne_of_gt hdpos
      field_simp
      linear_combination rf ^ 2 * hds
    rw [key, Real.sqrt_sq hrfpos.le]
  refine ⟨⟨rf / d, div_pos hrfpos hdpos, ?_⟩, ?_, ?_⟩
  · rw [hrw]
    simp only [Prod.mk.injEq]
    constructor <;> ring
  · rw [hmag]; exact hrfpos
  · rw [hmag]; exact hrfle

/-- Witness for C2 amended at particles (0,0) and (3,4): distance is 5,
inside the repulsion band with d² = 25 ≥ 0.01. -/
theorem repulsion_band_force_separating_witness :
    (0.01 ≤ distSq ⟨0, 0, 0, 0, 0, none, none, none⟩ ⟨3, 4, 0, 0, 7, none, none, none⟩ ∧
      euclidDist ⟨0, 0, 0, 0, 0, none, none, none⟩ ⟨3, 4, 0, 0, 7, none, none, none⟩ <
        REPULSION_RANGE) ∧
    ((∃ c : ℝ, 0 < c ∧
      calculateForce (fun _ _ => 1) ⟨0, 0, 0, 0, 0, none, none, none⟩
          ⟨3, 4, 0, 0, 7, none, none, none⟩ =
        (c * ((0:ℝ) - 3), c * ((0:ℝ) - 4))) ∧
    0 < forceNorm (calculateForce (fun _ _ => 1) ⟨0, 0, 0, 0, 0, none, none, none⟩
        ⟨3, 4, 0, 0, 7, none, none, none⟩) ∧
    forceNorm (calculateForce (fun _ _ => 1) ⟨0, 0, 0, 0, 0, none, none, none⟩
        ⟨3, 4, 0, 0, 7, none, none, none⟩) ≤ 50) := by
  have hsq : distSq ⟨0, 0, 0, 0, 0, none, none, none⟩ ⟨3, 4, 0, 0, 7, none, none, none⟩ = 25 := by
    unfold distSq; norm_num
  have h1 : (0.01 : ℝ) ≤ distSq ⟨0, 0, 0, 0, 0, none, none, none⟩
      ⟨3, 4, 0, 0, 7, none, none, none⟩ := by rw [hsq]; norm_num
  have h2 : euclidDist ⟨0, 0, 0, 0, 0, none, none, none⟩
      ⟨3, 4, 0, 0, 7, none, none, none⟩ < REPULSION_RANGE := by
    unfold euclidDist
    rw [hsq, show (25:ℝ) = 5 ^ 2 by norm_num,
      Real.sqrt_sq (by norm_num : (0:ℝ) ≤ 5), REPULSION_RANGE]
    norm_num
  exact ⟨⟨h1, h2⟩, repulsion_band_force_separating (fun _ _ => 1) _ _ h1 h2⟩

/-! ## Claim C10 -/

/-- C10: inside the short-range repulsion band (d² ≥ 0.01 and d < 8) the
pairwise force obeys Newtons third law: calculateForce(p1, p2) is the
componentwise negation of calculateForce(p2, p1), for every matrix and all
particle types. -/
theorem repulsion_band_newton_third_law (A : ℕ → ℕ → ℝ) (p1 p2 : ParticleLife)
    (h1 : 0.01 ≤ distSq p1 p2) (h2 : euclidDist p1 p2 < REPULSION_RANGE) :
    calculateForce A p2 p1 =
      (-(calculateForce A p1 p2).1, -(calculateForce A p1 p2).2) := by
  have h1' : 0.01 ≤ distSq p2 p1 := by rw [distSq_comm]; exact h1
  have h2' : euclidDist p2 p1 < REPULSION_RANGE := by
    unfold euclidDist; rw [distSq_comm]; exact h2
  have hd : euclidDist p2 p1 = euclidDist p1 p2 := by
    unfold euclidDist; rw [distSq_comm]
  rw [calculateForce_eq_repulsion A p1 p2 h1 h2,
    calculateForce_eq_repulsion A p2 p1 h1' h2', hd]
  simp only [Prod.mk.injEq]
  constructor <;> ring

/-! ## Claim C3: mode machine totality and the infinite PARTICLE_LIFE tail -/

lemma MESSAGES_length : MESSAGES.length = 7 := rfl

lemma enterMode_mode (f : List (List ℚ)) (tg : List (ℚ × ℚ × ℕ))
    (mode : AnimationMode) (now : ℚ) (s : MachineState) :
    (enterMode f tg mode now s).mode = mode := by
  unfold enterMode
  split_ifs <;> rfl

lemma enterMode_currentMessageIndex (f : List (List ℚ)) (tg : List (ℚ × ℚ × ℕ))
    (mode : AnimationMode) (now : ℚ) (s : MachineState) :
    (enterMode f tg mode now s).currentMessageIndex = s.currentMessageIndex := by
  unfold enterMode
  split_ifs <;> rfl

lemma enterMode_modeStartTime (f : List (List ℚ)) (tg : List (ℚ × ℚ × ℕ))
    (mode : AnimationMode) (now : ℚ) (s : MachineState) :
    (enterMode f tg mode now s).modeStartTime = now := by
  unfold enterMode
  split_ifs <;> rfl

/-- Every mode has a defined duration: the switch in getModeDuration covers
the entire enum. -/
lemma getModeDuration_isSome (s : MachineState) : (getModeDuration s).isSome = true := by
  rcases s with ⟨mode, idx, fst, t0, m, tgs⟩
  cases mode <;> rfl

/-- The invariant of the machine: either messages remain, or the mode is
PARTICLE_LIFE.  One advanceMode step preserves the invariant. -/
lemma advanceMode_inv (f : List (List ℚ)) (tg : List (ℚ × ℚ × ℕ)) (now : ℚ)
    (s : MachineState)
    (h : s.currentMessageIndex < 7 ∨ s.mode = .PARTICLE_LIFE) :
    (advanceMode f tg now s).currentMessageIndex < 7 ∨
      (advanceMode f tg now s).mode = .PARTICLE_LIFE := by
  rcases s with ⟨mode, idx, fst, t0, m, tgs⟩
  cases mode <;>
    simp only [advanceMode, getModeDuration, MESSAGES_length] <;>
    split_ifs <;>
    simp_all [enterMode_mode, enterMode_currentMessageIndex]

/-- Reachable states satisfy the invariant. -/
lemma reachable_inv (s : MachineState) (h : Reachable s) :
    s.currentMessageIndex < 7 ∨ s.mode = .PARTICLE_LIFE := by
  induction h with
  | init t m tg => exact Or.inl (by norm_num)
  | step s i _ ih => exact advanceMode_inv i.fresh i.targets i.now s ih

/-- In the infinite tail an advanceMode step keeps the mode PARTICLE_LIFE
and the message index unchanged. -/
lemma advanceMode_tail_preserved (f : List (List ℚ)) (tg : List (ℚ × ℚ × ℕ))
    (now : ℚ) (s : MachineState)
    (hm : s.mode = .PARTICLE_LIFE) (hi : 7 ≤ s.currentMessageIndex) :
    (advanceMode f tg now s).mode = .PARTICLE_LIFE ∧
      (advanceMode f tg now s).currentMessageIndex = s.currentMessageIndex := by
  rcases s with ⟨mode, idx, fst, t0, m, tgs⟩
  obtain rfl : mode = .PARTICLE_LIFE := hm
  have hi' : 7 ≤ idx := hi
  simp only [advanceMode, getModeDuration, MESSAGES_length]
  split_ifs <;> first | exact ⟨rfl, rfl⟩ | omega

/-- In the infinite tail, when the current cycle has expired, advanceMode
regenerates the attraction matrix and resets the phase clock, leaving the
mode and everything else unchanged. -/
lemma advanceMode_tail_step (fresh : List (List ℚ)) (tg : List (ℚ × ℚ × ℕ))
    (now : ℚ) (s : MachineState)
    (hm : s.mode = .PARTICLE_LIFE) (hi : MESSAGES.length ≤ s.currentMessageIndex)
    (hel : TIMING_particleLifeInfinite ≤ getModeElapsedTime s.modeStartTime now) :
    advanceMode fresh tg now s =
      { s with attractionMatrix := fresh, modeStartTime := now } := by
  rcases s with ⟨mode, idx, fst, t0, m, tgs⟩
  obtain rfl : mode = .PARTICLE_LIFE := hm
  have hi' : 7 ≤ idx := by simpa [MESSAGES_length] using hi
  have hel2 : TIMING_particleLifeInfinite ≤ getModeElapsedTime t0 now := hel
  simp only [advanceMode, getModeDuration, MESSAGES_length]
  split_ifs <;> first | rfl | omega | linarith [hel2]

/-- No trace of advanceMode steps out of a tail state ever reaches
FORMING. -/
lemma stepsFrom_tail_never_forming (s : MachineState)
    (hm : s.mode = .PARTICLE_LIFE) (hi : 7 ≤ s.currentMessageIndex) :
    ∀ trace : List StepInput, (stepsFrom s trace).mode ≠ .FORMING := by
  intro trace
  induction trace generalizing s with
  | nil => simp only [stepsFrom]; rw [hm]; intro hc; exact AnimationMode.noConfusion hc
  | cons i rest ih =>
      have hp := advanceMode_tail_preserved i.fresh i.targets i.now s hm hi
      simp only [stepsFrom]
      exact ih _ hp.1 (hp.2 ▸ hi)

/-- C3: the transition function is total (every state has a defined
duration, and advanceMode is a function, producing exactly one successor
state); once the message list is exhausted the machine never reaches
FORMING again from any reachable state, and each expiry of the infinite
PARTICLE_LIFE cycle regenerates the attraction matrix and resets the
phase clock in place. -/
theorem advanceMode_total_and_infinite_tail :
    (∀ s : MachineState, (getModeDuration s).isSome = true) ∧
    (∀ (s : MachineState) (fresh : List (List ℚ)) (tg : List (ℚ × ℚ × ℕ)) (now : ℚ),
      s.mode = .PARTICLE_LIFE → MESSAGES.length ≤ s.currentMessageIndex →
      TIMING_particleLifeInfinite ≤ getModeElapsedTime s.modeStartTime now →
      advanceMode fresh tg now s =
        { s with attractionMatrix := fresh, modeStartTime := now }) ∧
    (∀ s : MachineState, Reachable s → MESSAGES.length ≤ s.currentMessageIndex →
      ∀ trace : List StepInput, (stepsFrom s trace).mode ≠ .FORMING) :=
  ⟨getModeDuration_isSome,
   fun s fresh tg now hm hi hel => advanceMode_tail_step fresh tg now s hm hi hel,
   fun s hr hi trace =>
     stepsFrom_tail_never_forming s
       ((reachable_inv s hr).resolve_left
         (by rw [MESSAGES_length] at hi; omega))
       (by rw [MESSAGES_length] at hi; omega) trace⟩

lemma reachable_stepsFrom (s : MachineState) (h : Reachable s) (l : List StepInput) :
    Reachable (stepsFrom s l) := by
  induction l generalizing s with
  | nil => exact h
  | cons i rest ih => exact ih _ (Reachable.step s i h)

/-- Witness for C3: running the machine from the initial state through the
whole intro sequence (one step per phase expiry) exhausts the messages;
the resulting tail state has a defined duration, stays in PARTICLE_LIFE
with a fresh matrix and a reset clock on expiry, and a further step never
reaches FORMING. -/
theorem advanceMode_total_and_infinite_tail_witness :
    (getModeDuration (stepsFrom initState introTrace)).isSome = true ∧
    (stepsFrom initState introTrace).mode = .PARTICLE_LIFE ∧
    MESSAGES.length ≤ (stepsFrom initState introTrace).currentMessageIndex ∧
    advanceMode [[1]] [] 165000 (stepsFrom initState introTrace) =
      { stepsFrom initState introTrace with
          attractionMatrix := [[1]], modeStartTime := 165000 } ∧
    (stepsFrom (stepsFrom initState introTrace) [⟨[], [], 200000⟩]).mode ≠ .FORMING := by
  have hS : stepsFrom initState introTrace =
      ⟨.PARTICLE_LIFE, 7, false, 145000, [], []⟩ := by
    norm_num [stepsFrom, introTrace, initState, advanceMode, enterMode, getModeDuration,
      getModeElapsedTime, MESSAGES_length, CREATIVE_MESSAGE_INDEX, TIMING_explosion,
      TIMING_particleLife, TIMING_particleLifeInfinite, TIMING_forming, TIMING_holding,
      TIMING_holdingFirst, TIMING_holdingCreative, TIMING_balloonRising, TIMING_dissolving,
      List.map]
  have hm : (stepsFrom initState introTrace).mode = .PARTICLE_LIFE := by rw [hS]
  have hi : MESSAGES.length ≤ (stepsFrom initState introTrace).currentMessageIndex := by
    rw [hS, MESSAGES_length]
  have hr : Reachable (stepsFrom initState introTrace) :=
    reachable_stepsFrom _ (Reachable.init 0 [] []) _
  have hel : TIMING_particleLifeInfinite ≤
      getModeElapsedTime (stepsFrom initState introTrace).modeStartTime 165000 := by
    rw [hS]
    norm_num [getModeElapsedTime, TIMING_particleLifeInfinite]
  obtain ⟨h1, h2, h3⟩ := advanceMode_total_and_infinite_tail
  exact ⟨h1 _, hm, hi, h2 _ [[1]] [] 165000 hm hi hel, h3 _ hr hi [⟨[], [], 200000⟩]⟩

/-- Witness for C10 at particles (0,0) and (3,4). -/
theorem repulsion_band_newton_third_law_witness :
    calculateForce (fun i j => (i : ℝ) - j) ⟨3, 4, 0, 0, 2, none, none, none⟩
        ⟨0, 0, 0, 0, 5, none, none, none⟩ =
      (-(calculateForce (fun i j => (i : ℝ) - j) ⟨0, 0, 0, 0, 5, none, none, none⟩
          ⟨3, 4, 0, 0, 2, none, none, none⟩).1,
       -(calculateForce (fun i j => (i : ℝ) - j) ⟨0, 0, 0, 0, 5, none, none, none⟩
          ⟨3, 4, 0, 0, 2, none, none, none⟩).2) := by
  have hsq : distSq ⟨0, 0, 0, 0, 5, none, none, none⟩ ⟨3, 4, 0, 0, 2, none, none, none⟩ = 25 := by
    unfold distSq; norm_num
  have h1 : (0.01 : ℝ) ≤ distSq ⟨0, 0, 0, 0, 5, none, none, none⟩
      ⟨3, 4, 0, 0, 2, none, none, none⟩ := by rw [hsq]; norm_num
  have h2 : euclidDist ⟨0, 0, 0, 0, 5, none, none, none⟩
      ⟨3, 4, 0, 0, 2, none, none, none⟩ < REPULSION_RANGE := by
    unfold euclidDist
    rw [hsq, show (25:ℝ) = 5 ^ 2 by norm_num,
      Real.sqrt_sq (by norm_num : (0:ℝ) ≤ 5), REPULSION_RANGE]
    norm_num
  exact repulsion_band_newton_third_law (fun i j => (i : ℝ) - j) _ _ h1 h2

/-- Witness for C1 at a concrete input: particles at (0,0) and (100,0)
are 100 units apart, beyond the interaction radius, and get zero force. -/
theorem calculateForce_zero_beyond_interaction_radius_witness :
    FORCE_RANGE < euclidDist ⟨0, 0, 0, 0, 0, none, none, none⟩ ⟨100, 0, 0, 0, 1, none, none, none⟩ ∧
    calculateForce (fun _ _ => 1) ⟨0, 0, 0, 0, 0, none, none, none⟩ ⟨100, 0, 0, 0, 1, none, none, none⟩ = (0, 0) := by
  have hd : euclidDist ⟨0, 0, 0, 0, 0, none, none, none⟩ ⟨100, 0, 0, 0, 1, none, none, none⟩ = 100 := by
    unfold euclidDist distSq
    norm_num
    rw [show (10000 : ℝ) = 100 ^ 2 by norm_num, Real.sqrt_sq (by norm_num : (0:ℝ) ≤ 100)]
  have hlt : FORCE_RANGE < euclidDist ⟨0, 0, 0, 0, 0, none, none, none⟩ ⟨100, 0, 0, 0, 1, none, none, none⟩ := by
    rw [hd, FORCE_RANGE]; norm_num
  exact ⟨hlt, calculateForce_zero_beyond_interaction_radius _ _ _ hlt⟩

/-! ## Claim C5: generated matrices are square and bounded -/

/-- Every matrix entry of every preset (including the default branch) lies
in [-1, 1] when the random draws lie in [0, 1). -/
lemma matrixEntry_bounds (preset : String) (rand : ℕ → ℚ)
    (hr : ∀ n, 0 ≤ rand n ∧ rand n < 1) (i j : ℕ) :
    -1 ≤ matrixEntry preset rand i j ∧ matrixEntry preset rand i j ≤ 1 := by
  have hq0 : (0 : ℚ) ≤ (((j + 12 - i) % 12 : ℕ) : ℚ) := Nat.cast_nonneg _
  have hq11 : (((j + 12 - i) % 12 : ℕ) : ℚ) ≤ 11 := by
    have h11 : (j + 12 - i) % 12 ≤ 11 := by omega
    exact_mod_cast h11
  have hc1 := hr (2 * (i * 12 + j) + 1)
  have hb1 := hr (i * 12 + j)
  unfold matrixEntry
  simp only [PARTICLE_TYPES]
  split_ifs <;> constructor <;>
    linarith [hc1.1, hc1.2, hb1.1, hb1.2, hq0, hq11]

/-- C5: for every preset draw and every outcome of the random draws (each
in [0, 1)), generateAttractionMatrix returns a fully populated square
12 by 12 matrix all of whose entries lie in [-1, 1]. -/
theorem generateAttractionMatrix_square_and_bounded (presetDraw : ℚ) (rand : ℕ → ℚ)
    (hr : ∀ n, 0 ≤ rand n ∧ rand n < 1) :
    (generateAttractionMatrix presetDraw rand).length = PARTICLE_TYPES ∧
    (∀ row ∈ generateAttractionMatrix presetDraw rand, row.length = PARTICLE_TYPES) ∧
    (∀ row ∈ generateAttractionMatrix presetDraw rand,
      ∀ v ∈ row, -1 ≤ v ∧ v ≤ 1) := by
  refine ⟨?_, ?_, ?_⟩
  · simp [generateAttractionMatrix]
  · intro row hrow
    simp only [generateAttractionMatrix, List.mem_map, List.mem_range] at hrow
    obtain ⟨i, hi, rfl⟩ := hrow
    simp
  · intro row hrow v hv
    simp only [generateAttractionMatrix, List.mem_map, List.mem_range] at hrow
    obtain ⟨i, hi, rfl⟩ := hrow
    simp only [List.mem_map, List.mem_range] at hv
    obtain ⟨j, hj, rfl⟩ := hv
    exact matrixEntry_bounds _ rand hr i j

/-- Witness for C5 with the constant draw 1/2 (preset index 3, the chaos
preset). -/
theorem generateAttractionMatrix_square_and_bounded_witness :
    (∀ n : ℕ, 0 ≤ (fun _ : ℕ => (1/2 : ℚ)) n ∧ (fun _ : ℕ => (1/2 : ℚ)) n < 1) ∧
    ((generateAttractionMatrix (1/2) (fun _ => 1/2)).length = PARTICLE_TYPES ∧
    (∀ row ∈ generateAttractionMatrix (1/2) (fun _ => 1/2), row.length = PARTICLE_TYPES) ∧
    (∀ row ∈ generateAttractionMatrix (1/2) (fun _ => 1/2),
      ∀ v ∈ row, -1 ≤ v ∧ v ≤ 1)) := by
  have hr : ∀ n : ℕ, 0 ≤ (fun _ : ℕ => (1/2 : ℚ)) n ∧ (fun _ : ℕ => (1/2 : ℚ)) n < 1 :=
    fun n => by norm_num
  exact ⟨hr, generateAttractionMatrix_square_and_bounded (1/2) (fun _ => 1/2) hr⟩

/-! ## Claim C7: toroidal wrap after the position update -/

/-- After the clamp, each velocity component is at most MAX_SPEED in
absolute value. -/
lemma stepVelocity_abs_le (vx vy Fx Fy dt : ℝ) :
    |(stepVelocity vx vy Fx Fy dt).1| ≤ MAX_SPEED ∧
    |(stepVelocity vx vy Fx Fy dt).2| ≤ MAX_SPEED := by
  simp only [stepVelocity]
  set vx1 := (vx + Fx * dt) * FRICTION with hvx1
  set vy1 := (vy + Fy * dt) * FRICTION with hvy1
  have hx : |vx1| ≤ Real.sqrt (vx1 * vx1 + vy1 * vy1) := by
    rw [← Real.sqrt_mul_self_eq_abs]
    exact Real.sqrt_le_sqrt (by nlinarith [mul_self_nonneg vy1])
  have hy : |vy1| ≤ Real.sqrt (vx1 * vx1 + vy1 * vy1) := by
    rw [← Real.sqrt_mul_self_eq_abs]
    exact Real.sqrt_le_sqrt (by nlinarith [mul_self_nonneg vx1])
  set speed := Real.sqrt (vx1 * vx1 + vy1 * vy1) with hspeed
  have hMS : (0 : ℝ) < MAX_SPEED := by rw [MAX_SPEED]; norm_num
  split_ifs with hgt
  · have hsp : 0 < speed := lt_trans hMS hgt
    have hdivpos : 0 < MAX_SPEED / speed := div_pos hMS hsp
    constructor
    · show |vx1 * (MAX_SPEED / speed)| ≤ MAX_SPEED
      rw [abs_mul, abs_of_pos hdivpos]
      calc |vx1| * (MAX_SPEED / speed) ≤ speed * (MAX_SPEED / speed) :=
            mul_le_mul_of_nonneg_right hx hdivpos.le
        _ = MAX_SPEED := by field_simp
    · show |vy1 * (MAX_SPEED / speed)| ≤ MAX_SPEED
      rw [abs_mul, abs_of_pos hdivpos]
      calc |vy1| * (MAX_SPEED / speed) ≤ speed * (MAX_SPEED / speed) :=
            mul_le_mul_of_nonneg_right hy hdivpos.le
        _ = MAX_SPEED := by field_simp
  · exact ⟨le_trans hx (not_lt.mp hgt), le_trans hy (not_lt.mp hgt)⟩

/-- The wrap keeps a coordinate inside the closed interval [0, w] whenever
the unwrapped value lies within one period of it. -/
lemma wrapCoord_mem_closed (w x : ℝ) (hw : 0 ≤ w) (h1 : -w ≤ x) (h2 : x ≤ 2 * w) :
    0 ≤ wrapCoord w x ∧ wrapCoord w x ≤ w := by
  simp only [wrapCoord]
  split_ifs <;> constructor <;> linarith

/-- Counterexample to C7 as stated: with simWidth = simHeight = 100 > 0, a
particle at x = 90 whose post-friction velocity is exactly 100 and dt =
0.1 lands exactly on x = simWidth, and the wrap (both comparisons strict)
leaves it there, outside the half-open box [0, simWidth). -/
theorem updateParticle_halfopen_wrap_counterexample :
    (0 : ℝ) < 100 ∧
    0 ≤ (⟨90, 10, 1250/11, 0, 0, none, none, none⟩ : ParticleLife).x ∧
    (⟨90, 10, 1250/11, 0, 0, none, none, none⟩ : ParticleLife).x < 100 ∧
    (updateParticle ⟨90, 10, 1250/11, 0, 0, none, none, none⟩ 0 0 (1/10) 100 100).x = 100 ∧
    ¬ ((updateParticle ⟨90, 10, 1250/11, 0, 0, none, none, none⟩ 0 0 (1/10) 100 100).x < 100) := by
  have hv : stepVelocity (1250/11) 0 0 0 (1/10) = (100, 0) := by
    have h1 : ((1250/11 : ℝ) + 0 * (1/10)) * FRICTION = 100 := by rw [FRICTION]; norm_num
    have h2 : ((0 : ℝ) + 0 * (1/10)) * FRICTION = 0 := by rw [FRICTION]; norm_num
    have hs : Real.sqrt ((100 : ℝ) * 100 + 0 * 0) = 100 := by
      norm_num
      rw [show (10000 : ℝ) = 100 ^ 2 by norm_num,
        Real.sqrt_sq (by norm_num : (0:ℝ) ≤ 100)]
    simp only [stepVelocity, h1, h2, hs]
    rw [if_neg (by rw [MAX_SPEED]; norm_num)]
  have hxeq : (updateParticle ⟨90, 10, 1250/11, 0, 0, none, none, none⟩
      0 0 (1/10) 100 100).x =
      wrapCoord 100 ((90 : ℝ) + (stepVelocity (1250/11) 0 0 0 (1/10)).1 * (1/10)) := rfl
  have hwrap : wrapCoord 100 ((90 : ℝ) + 100 * (1/10)) = 100 := by
    simp only [wrapCoord]
    norm_num
  have hx : (updateParticle ⟨90, 10, 1250/11, 0, 0, none, none, none⟩
      0 0 (1/10) 100 100).x = 100 := by
    rw [hxeq, hv]
    exact hwrap
  exact ⟨by norm_num, by norm_num, by norm_num, hx, by rw [hx]; norm_num⟩

/-- C7 amended: under a positive simulation size, a nonnegative dt, a
pre-update position inside the box and a maximal displacement
MAX_SPEED times dt no larger than either dimension, the wrapped position
lies in the closed box [0, simWidth] times [0, simHeight] (the right and
bottom edges are attainable, since both wrap comparisons are strict, so
the half-open box of the claim is off exactly at the boundary); and a
particle whose integration leaves through the right edge reappears at the
overshoot distance from the left edge. -/
theorem updateParticle_wraps_into_closed_box (p : ParticleLife)
    (Fx Fy dt w h : ℝ) (hw : 0 < w) (hh : 0 < h) (hdt : 0 ≤ dt)
    (hx1 : 0 ≤ p.x) (hx2 : p.x ≤ w) (hy1 : 0 ≤ p.y) (hy2 : p.y ≤ h)
    (hbw : MAX_SPEED * dt ≤ w) (hbh : MAX_SPEED * dt ≤ h) :
    (0 ≤ (updateParticle p Fx Fy dt w h).x ∧ (updateParticle p Fx Fy dt w h).x ≤ w ∧
     0 ≤ (updateParticle p Fx Fy dt w h).y ∧ (updateParticle p Fx Fy dt w h).y ≤ h) ∧
    (w < p.x + (stepVelocity p.vx p.vy Fx Fy dt).1 * dt →
      (updateParticle p Fx Fy dt w h).x =
        p.x + (stepVelocity p.vx p.vy Fx Fy dt).1 * dt - w) := by
  obtain ⟨hvx, hvy⟩ := stepVelocity_abs_le p.vx p.vy Fx Fy dt
  set v := stepVelocity p.vx p.vy Fx Fy dt with hvdef
  have hdx : |v.1 * dt| ≤ MAX_SPEED * dt := by
    rw [abs_mul, abs_of_nonneg hdt]
    exact mul_le_mul_of_nonneg_right hvx hdt
  have hdy : |v.2 * dt| ≤ MAX_SPEED * dt := by
    rw [abs_mul, abs_of_nonneg hdt]
    exact mul_le_mul_of_nonneg_right hvy hdt
  obtain ⟨hdx1, hdx2⟩ := abs_le.mp hdx
  obtain ⟨hdy1, hdy2⟩ := abs_le.mp hdy
  have hxeq : (updateParticle p Fx Fy dt w h).x = wrapCoord w (p.x + v.1 * dt) := rfl
  have hyeq : (updateParticle p Fx Fy dt w h).y = wrapCoord h (p.y + v.2 * dt) := rfl
  have hXmem := wrapCoord_mem_closed w (p.x + v.1 * dt) hw.le
    (by linarith) (by linarith)
  have hYmem := wrapCoord_mem_closed h (p.y + v.2 * dt) hh.le
    (by linarith) (by linarith)
  refine ⟨⟨?_, ?_, ?_, ?_⟩, ?_⟩
  · rw [hxeq]; exact hXmem.1
  · rw [hxeq]; exact hXmem.2
  · rw [hyeq]; exact hYmem.1
  · rw [hyeq]; exact hYmem.2
  · intro hcross
    rw [hxeq]
    simp only [wrapCoord]
    rw [if_neg (by linarith : ¬ (p.x + v.1 * dt < 0)), if_pos hcross]

/-- Witness for C7 amended at a concrete particle resting at the origin of
a 100 by 100 box with dt = 0.1. -/
theorem updateParticle_wraps_into_closed_box_witness :
    ((0:ℝ) < 100 ∧ (0:ℝ) ≤ 1/10 ∧ MAX_SPEED * (1/10 : ℝ) ≤ 100) ∧
    (0 ≤ (updateParticle ⟨0, 0, 0, 0, 0, none, none, none⟩ 0 0 (1/10) 100 100).x ∧
     (updateParticle ⟨0, 0, 0, 0, 0, none, none, none⟩ 0 0 (1/10) 100 100).x ≤ 100 ∧
     0 ≤ (updateParticle ⟨0, 0, 0, 0, 0, none, none, none⟩ 0 0 (1/10) 100 100).y ∧
     (updateParticle ⟨0, 0, 0, 0, 0, none, none, none⟩ 0 0 (1/10) 100 100).y ≤ 100) := by
  have hbw : MAX_SPEED * (1/10 : ℝ) ≤ 100 := by rw [MAX_SPEED]; norm_num
  have hmain := updateParticle_wraps_into_closed_box
    ⟨0, 0, 0, 0, 0, none, none, none⟩ 0 0 (1/10) 100 100
    (by norm_num) (by norm_num) (by norm_num)
    (by norm_num) (by norm_num) (by norm_num) (by norm_num) hbw hbw
  exact ⟨⟨by norm_num, by norm_num, hbw⟩, hmain.1⟩

/-! ## Claim C8: neighbor-query completeness of the grid -/

lemma CELL_SIZE_pos : (0 : ℝ) < CELL_SIZE := by
  rw [CELL_SIZE, FORCE_RANGE]; norm_num

/-- The JS positive modulus is the identity on canonical representatives. -/
lemma jsPosMod_eq_self (a n : ℤ) (h0 : 0 ≤ a) (h1 : a < n) : jsPosMod a n = a := by
  have hn : (0 : ℤ) ≤ n := le_trans h0 h1.le
  unfold jsPosMod
  rw [Int.tmod_eq_emod h0 hn, Int.emod_eq_of_lt h0 h1,
    Int.tmod_eq_emod (by linarith) hn,
    show a + n = a + n * 1 by ring, Int.add_mul_emod_self_left]
  exact Int.emod_eq_of_lt h0 h1

/-- Adding one full period before the JS % is the identity on canonical
representatives. -/
lemma tmod_add_self_eq (a n : ℤ) (h0 : 0 ≤ a) (h1 : a < n) : (a + n).tmod n = a := by
  have hn : (0 : ℤ) ≤ n := le_trans h0 h1.le
  rw [Int.tmod_eq_emod (by linarith) hn,
    show a + n = a + n * 1 by ring, Int.add_mul_emod_self_left]
  exact Int.emod_eq_of_lt h0 h1

/-- A position inside [0, sim) has its raw cell number in [0, gridDim sim). -/
lemma floor_cell_bounds (sim pos : ℝ) (h0 : 0 ≤ pos) (h1 : pos < sim) :
    0 ≤ ⌊pos / CELL_SIZE⌋ ∧ ⌊pos / CELL_SIZE⌋ < gridDim sim := by
  constructor
  · exact Int.floor_nonneg.mpr (div_nonneg h0 CELL_SIZE_pos.le)
  · apply Int.floor_lt.mpr
    have hc : (sim / CELL_SIZE : ℝ) ≤ ((gridDim sim : ℤ) : ℝ) := by
      have hmax : (⌈sim / CELL_SIZE⌉ : ℤ) ≤ gridDim sim := le_max_right _ _
      calc sim / CELL_SIZE ≤ (⌈sim / CELL_SIZE⌉ : ℝ) := Int.le_ceil _
        _ ≤ ((gridDim sim : ℤ) : ℝ) := by exact_mod_cast hmax
    calc pos / CELL_SIZE < sim / CELL_SIZE := (div_lt_div_right CELL_SIZE_pos).mpr h1
      _ ≤ ((gridDim sim : ℤ) : ℝ) := hc

/-- cellCoord reduces to the raw cell number for in-range positions. -/
lemma cellCoord_eq_floor (cells : ℤ) (pos : ℝ)
    (h0 : 0 ≤ ⌊pos / CELL_SIZE⌋) (h1 : ⌊pos / CELL_SIZE⌋ < cells) :
    cellCoord cells pos = ⌊pos / CELL_SIZE⌋ :=
  jsPosMod_eq_self _ _ h0 h1

/-- Positions at most one cell size apart have raw cell numbers at most
one apart. -/
lemma floor_div_adjacent (x y : ℝ) (h : |y - x| ≤ CELL_SIZE) :
    ⌊x / CELL_SIZE⌋ - 1 ≤ ⌊y / CELL_SIZE⌋ ∧
      ⌊y / CELL_SIZE⌋ ≤ ⌊x / CELL_SIZE⌋ + 1 := by
  obtain ⟨ha, hb⟩ := abs_le.mp h
  have hne : CELL_SIZE ≠ 0 := ne_of_gt CELL_SIZE_pos
  have hfs := Int.floor_sub_int (x / CELL_SIZE) 1
  have hfa := Int.floor_add_int (x / CELL_SIZE) 1
  rw [Int.cast_one] at hfs hfa
  constructor
  · have hle : x / CELL_SIZE - 1 ≤ y / CELL_SIZE := by
      have hstep : (x - CELL_SIZE) / CELL_SIZE ≤ y / CELL_SIZE :=
        (div_le_div_right CELL_SIZE_pos).mpr (by linarith)
      calc x / CELL_SIZE - 1 = (x - CELL_SIZE) / CELL_SIZE := by
            rw [sub_div, div_self hne]
        _ ≤ y / CELL_SIZE := hstep
    calc ⌊x / CELL_SIZE⌋ - 1 = ⌊x / CELL_SIZE - 1⌋ := hfs.symm
      _ ≤ ⌊y / CELL_SIZE⌋ := Int.floor_mono hle
  · have hle : y / CELL_SIZE ≤ x / CELL_SIZE + 1 := by
      have hstep : y / CELL_SIZE ≤ (x + CELL_SIZE) / CELL_SIZE :=
        (div_le_div_right CELL_SIZE_pos).mpr (by linarith)
      calc y / CELL_SIZE ≤ (x + CELL_SIZE) / CELL_SIZE := hstep
        _ = x / CELL_SIZE + 1 := by rw [add_div, div_self hne]
    calc ⌊y / CELL_SIZE⌋ ≤ ⌊x / CELL_SIZE + 1⌋ := Int.floor_mono hle
      _ = ⌊x / CELL_SIZE⌋ + 1 := hfa

/-- C8: after buildGrid, for any two particles inside the half-open
simulation box whose Euclidean distance is at most the interaction radius
(the cell size), the 3 by 3 wrapped block of cells visited by
forEachNearbyParticle around the first contains the bucket holding the
second, so the callback is invoked on it. -/
theorem forEachNearbyParticle_finds_close_neighbors
    (simWidth simHeight : ℝ) (p q : ParticleLife) (particles : List ParticleLife)
    (hpx0 : 0 ≤ p.x) (hpx1 : p.x < simWidth) (hpy0 : 0 ≤ p.y) (hpy1 : p.y < simHeight)
    (hqx0 : 0 ≤ q.x) (hqx1 : q.x < simWidth) (hqy0 : 0 ≤ q.y) (hqy1 : q.y < simHeight)
    (hd : euclidDist p q ≤ FORCE_RANGE) (hq : q ∈ particles) :
    q ∈ nearbyParticles (gridDim simWidth) (gridDim simHeight) particles p := by
  have hnn : (0 : ℝ) ≤ distSq p q := add_nonneg (mul_self_nonneg _) (mul_self_nonneg _)
  have hds : distSq p q ≤ 6400 := by
    have h80 : Real.sqrt (distSq p q) ≤ 80 := by
      simpa [euclidDist, FORCE_RANGE] using hd
    nlinarith [Real.sq_sqrt hnn, Real.sqrt_nonneg (distSq p q)]
  have hds' : (q.x - p.x) * (q.x - p.x) + (q.y - p.y) * (q.y - p.y) ≤ 6400 := hds
  have hxcomp : |q.x - p.x| ≤ CELL_SIZE := by
    rw [CELL_SIZE, FORCE_RANGE]
    apply abs_le.mpr
    constructor <;> nlinarith [mul_self_nonneg (q.y - p.y)]
  have hycomp : |q.y - p.y| ≤ CELL_SIZE := by
    rw [CELL_SIZE, FORCE_RANGE]
    apply abs_le.mpr
    constructor <;> nlinarith [mul_self_nonneg (q.x - p.x)]
  obtain ⟨hpa0, hpa1⟩ := floor_cell_bounds simWidth p.x hpx0 hpx1
  obtain ⟨hqa0, hqa1⟩ := floor_cell_bounds simWidth q.x hqx0 hqx1
  obtain ⟨hpb0, hpb1⟩ := floor_cell_bounds simHeight p.y hpy0 hpy1
  obtain ⟨hqb0, hqb1⟩ := floor_cell_bounds simHeight q.y hqy0 hqy1
  obtain ⟨hadjx1, hadjx2⟩ := floor_div_adjacent p.x q.x hxcomp
  obtain ⟨hadjy1, hadjy2⟩ := floor_div_adjacent p.y q.y hycomp
  have hidx : cellIndex (gridDim simWidth) (gridDim simHeight) q =
      ⌊q.y / CELL_SIZE⌋ * gridDim simWidth + ⌊q.x / CELL_SIZE⌋ := by
    unfold cellIndex
    rw [cellCoord_eq_floor _ _ hqa0 hqa1, cellCoord_eq_floor _ _ hqb0 hqb1]
  apply List.mem_flatMap.mpr
  refine ⟨cellIndex (gridDim simWidth) (gridDim simHeight) q, ?_, ?_⟩
  · simp only [nearbyCellIndices, List.mem_flatMap, List.mem_map]
    refine ⟨⌊q.x / CELL_SIZE⌋ - ⌊p.x / CELL_SIZE⌋, by simp; omega,
      ⌊q.y / CELL_SIZE⌋ - ⌊p.y / CELL_SIZE⌋, by simp; omega, ?_⟩
    rw [cellCoord_eq_floor _ _ hpa0 hpa1, cellCoord_eq_floor _ _ hpb0 hpb1,
      show ⌊p.y / CELL_SIZE⌋ + (⌊q.y / CELL_SIZE⌋ - ⌊p.y / CELL_SIZE⌋) + gridDim simHeight =
        ⌊q.y / CELL_SIZE⌋ + gridDim simHeight by ring,
      show ⌊p.x / CELL_SIZE⌋ + (⌊q.x / CELL_SIZE⌋ - ⌊p.x / CELL_SIZE⌋) + gridDim simWidth =
        ⌊q.x / CELL_SIZE⌋ + gridDim simWidth by ring,
      tmod_add_self_eq _ _ hqb0 hqb1, tmod_add_self_eq _ _ hqa0 hqa1, hidx]
  · simp only [gridBucket, List.mem_filter]
    exact ⟨hq, by simp⟩

/-- Witness for C8: two particles five units apart in a 100 by 100 box. -/
theorem forEachNearbyParticle_finds_close_neighbors_witness :
    euclidDist ⟨10, 20, 0, 0, 0, none, none, none⟩ ⟨13, 24, 0, 0, 1, none, none, none⟩ ≤
      FORCE_RANGE ∧
    (⟨13, 24, 0, 0, 1, none, none, none⟩ : ParticleLife) ∈
      nearbyParticles (gridDim 100) (gridDim 100)
        [⟨13, 24, 0, 0, 1, none, none, none⟩] ⟨10, 20, 0, 0, 0, none, none, none⟩ := by
  have hsq : distSq ⟨10, 20, 0, 0, 0, none, none, none⟩
      ⟨13, 24, 0, 0, 1, none, none, none⟩ = 25 := by
    unfold distSq; norm_num
  have hd : euclidDist ⟨10, 20, 0, 0, 0, none, none, none⟩
      ⟨13, 24, 0, 0, 1, none, none, none⟩ ≤ FORCE_RANGE := by
    unfold euclidDist
    rw [hsq, show (25 : ℝ) = 5 ^ 2 by norm_num,
      Real.sqrt_sq (by norm_num : (0:ℝ) ≤ 5), FORCE_RANGE]
    norm_num
  refine ⟨hd, ?_⟩
  exact forEachNearbyParticle_finds_close_neighbors 100 100 _ _ _
    (by norm_num) (by norm_num) (by norm_num) (by norm_num)
    (by norm_num) (by norm_num) (by norm_num) (by norm_num)
    hd (by simp)

/-! ## Claim C9: empty target sets -/

/-- Counterexample to C9 as stated: when the target list is empty,
assignTargetsToParticles indeed changes nothing, but a particle that kept
a stale target from an earlier formation still receives a nonzero
formation force, so the formation force is not the zero vector on every
particle. -/
theorem empty_targets_formation_counterexample :
    assignTargetsToParticles [] (fun _ => 1/2)
        [⟨0, 0, 0, 0, 0, some 10, some 0, some 1⟩] =
      [⟨0, 0, 0, 0, 0, some 10, some 0, some 1⟩] ∧
    getFormationForce ⟨0, 0, 0, 0, 0, some 10, some 0, some 1⟩ 1 = (2500, 0) ∧
    getFormationForce ⟨0, 0, 0, 0, 0, some 10, some 0, some 1⟩ 1 ≠ ((0 : ℝ), (0 : ℝ)) := by
  have hs : Real.sqrt (((10 : ℝ) - 0) * ((10 : ℝ) - 0) + ((0 : ℝ) - 0) * ((0 : ℝ) - 0)) = 10 := by
    norm_num
    rw [show (100 : ℝ) = 10 ^ 2 by norm_num, Real.sqrt_sq (by norm_num : (0:ℝ) ≤ 10)]
  have hforce : getFormationForce ⟨0, 0, 0, 0, 0, some 10, some 0, some 1⟩ 1 = (2500, 0) := by
    simp only [getFormationForce, hs]
    norm_num
  refine ⟨by simp [assignTargetsToParticles], hforce, ?_⟩
  rw [hforce]
  intro hcontra
  have : (2500 : ℝ) = 0 := congrArg Prod.fst hcontra
  norm_num at this

/-- C9 amended: with an empty target list, assignTargetsToParticles leaves
every particle unchanged (no undefined-target assignment occurs);
the formation force is the zero vector on every particle without an
assigned target; and the mode state machine advances on its timer
identically for the empty and any non-empty target set (its mode, message
index and phase clock do not depend on the target list). -/
theorem empty_targets_noop :
    (∀ (rand : ℕ → ℝ) (ps : List ParticleLife),
      assignTargetsToParticles [] rand ps = ps) ∧
    (∀ (p : ParticleLife) (strength : ℝ),
      p.targetX = none ∨ p.targetY = none → getFormationForce p strength = (0, 0)) ∧
    (∀ (f : List (List ℚ)) (tgA tgB : List (ℚ × ℚ × ℕ)) (now : ℚ) (s : MachineState),
      (advanceMode f tgA now s).mode = (advanceMode f tgB now s).mode ∧
      (advanceMode f tgA now s).currentMessageIndex =
        (advanceMode f tgB now s).currentMessageIndex ∧
      (advanceMode f tgA now s).modeStartTime =
        (advanceMode f tgB now s).modeStartTime) := by
  refine ⟨?_, ?_, ?_⟩
  · intro rand ps
    simp [assignTargetsToParticles]
  · intro p strength h
    rcases p with ⟨x, y, vx, vy, t, tx, ty, fs⟩
    rcases h with h | h
    · obtain rfl : tx = none := h
      cases ty <;> rfl
    · obtain rfl : ty = none := h
      cases tx <;> rfl
  · intro f tgA tgB now s
    rcases s with ⟨mode, idx, fst, t0, m, tgs⟩
    cases mode <;>
      simp only [advanceMode, getModeDuration] <;>
      split_ifs <;>
      simp [enterMode_mode, enterMode_currentMessageIndex, enterMode_modeStartTime]

/-- Witness for C9 amended at concrete inputs. -/
theorem empty_targets_noop_witness :
    assignTargetsToParticles [] (fun _ => (1 : ℝ)) [⟨1, 2, 3, 4, 5, none, none, none⟩] =
      [⟨1, 2, 3, 4, 5, none, none, none⟩] ∧
    getFormationForce ⟨1, 2, 3, 4, 5, none, none, none⟩ 1 = (0, 0) ∧
    (advanceMode [] [(1, 2, 3)] 99000 ⟨.PARTICLE_LIFE, 1, false, 80000, [], []⟩).mode =
      (advanceMode [] [] 99000 ⟨.PARTICLE_LIFE, 1, false, 80000, [], []⟩).mode := by
  obtain ⟨h1, h2, h3⟩ := empty_targets_noop
  exact ⟨h1 _ _, h2 _ 1 (Or.inl rfl), (h3 [] [(1, 2, 3)] [] 99000 _).1⟩

/-! ## Claim C4: logical elapsed time is invariant under pause -/

/-- C4: hiding the document at time t0 and resuming at time t0 + T leaves
getModeElapsedTime unchanged (its value at t0 + T after resuming equals
its value at t0 before hiding), because the pause duration T is added to
modeStartTime, to the loop's last-frame timestamp and to the running
pausedTime total. -/
theorem pause_resume_elapsed_invariant (s : LoopTiming) (t0 T : ℚ)
    (h : s.isPaused = false) :
    getModeElapsedTime
        ((renderResumeStep (t0 + T) (renderHiddenStep t0 s)).modeStartTime) (t0 + T) =
      getModeElapsedTime s.modeStartTime t0 ∧
    (renderResumeStep (t0 + T) (renderHiddenStep t0 s)).pausedTime = s.pausedTime + T ∧
    (renderResumeStep (t0 + T) (renderHiddenStep t0 s)).lastTime = s.lastTime + T ∧
    (renderResumeStep (t0 + T) (renderHiddenStep t0 s)).modeStartTime =
      s.modeStartTime + T := by
  rcases s with ⟨ms, as, lt, pt, ip, lp⟩
  obtain rfl : ip = false := h
  simp only [renderHiddenStep, renderResumeStep, getModeElapsedTime,
    Bool.false_eq_true, if_false, if_true]
  norm_num

/-- Witness for C4 at a concrete state: pause at 5000 ms for 2000 ms. -/
theorem pause_resume_elapsed_invariant_witness :
    (⟨1000, 0, 4900, 0, false, 0⟩ : LoopTiming).isPaused = false ∧
    (getModeElapsedTime
        ((renderResumeStep (5000 + 2000)
          (renderHiddenStep 5000 ⟨1000, 0, 4900, 0, false, 0⟩)).modeStartTime) (5000 + 2000) =
      getModeElapsedTime (1000 : ℚ) 5000 ∧
    (renderResumeStep (5000 + 2000)
        (renderHiddenStep 5000 ⟨1000, 0, 4900, 0, false, 0⟩)).pausedTime = 0 + 2000 ∧
    (renderResumeStep (5000 + 2000)
        (renderHiddenStep 5000 ⟨1000, 0, 4900, 0, false, 0⟩)).lastTime = 4900 + 2000 ∧
    (renderResumeStep (5000 + 2000)
        (renderHiddenStep 5000 ⟨1000, 0, 4900, 0, false, 0⟩)).modeStartTime = 1000 + 2000) :=
  ⟨rfl, pause_resume_elapsed_invariant ⟨1000, 0, 4900, 0, false, 0⟩ 5000 2000 rfl⟩

/-! ## Claim C6: getProgress and isReady -/

/-- C6: for every state and call time with nonnegative pause-adjusted
elapsed time, getProgress is in [0, 1]; below the total intro duration it
equals elapsed divided by that total; once the intro has completed it is
exactly 1 and isReady holds; and the total is exactly the sum of the
fixed phase durations of the intro schedule up to and including the final
message's hold. -/
theorem getProgress_in_unit_interval_and_saturates (s : LoopTiming) (now : ℚ)
    (h : 0 ≤ getElapsedMs s now) :
    (0 ≤ getProgress s now ∧ getProgress s now ≤ 1) ∧
    (getElapsedMs s now ≤ getTotalDurationMs →
      getProgress s now = getElapsedMs s now / getTotalDurationMs) ∧
    (getTotalDurationMs ≤ getElapsedMs s now →
      getProgress s now = 1 ∧ isReady s now = true) ∧
    getTotalDurationMs = 1000 * introScheduleDurations.sum := by
  have htot : getTotalDurationMs = 143000 := by
    norm_num [getTotalDurationMs, TIMING_holdingFirst, TIMING_dissolving,
      TIMING_particleLife, TIMING_forming, TIMING_holding, TIMING_holdingCreative,
      TIMING_balloonRising]
  have htotpos : (0 : ℚ) < getTotalDurationMs := by rw [htot]; norm_num
  refine ⟨⟨?_, ?_⟩, ?_, ?_, ?_⟩
  · exact le_min (by norm_num) (div_nonneg h htotpos.le)
  · exact min_le_left _ _
  · intro hle
    exact min_eq_right ((div_le_one htotpos).mpr hle)
  · intro hge
    refine ⟨min_eq_left ((one_le_div htotpos).mpr hge), ?_⟩
    unfold isReady
    rw [if_pos hge]
  · rw [htot]
    norm_num [introScheduleDurations, TIMING_holdingFirst, TIMING_dissolving,
      TIMING_particleLife, TIMING_forming, TIMING_holding, TIMING_holdingCreative,
      TIMING_balloonRising]

/-- Witness for C6 at a concrete state: with no pauses, at 143000 ms the
intro has just completed. -/
theorem getProgress_in_unit_interval_and_saturates_witness :
    0 ≤ getElapsedMs ⟨0, 0, 0, 0, false, 0⟩ 143000 ∧
    ((0 ≤ getProgress ⟨0, 0, 0, 0, false, 0⟩ 143000 ∧
      getProgress ⟨0, 0, 0, 0, false, 0⟩ 143000 ≤ 1) ∧
    (getElapsedMs ⟨0, 0, 0, 0, false, 0⟩ 143000 ≤ getTotalDurationMs →
      getProgress ⟨0, 0, 0, 0, false, 0⟩ 143000 =
        getElapsedMs ⟨0, 0, 0, 0, false, 0⟩ 143000 / getTotalDurationMs) ∧
    (getTotalDurationMs ≤ getElapsedMs ⟨0, 0, 0, 0, false, 0⟩ 143000 →
      getProgress ⟨0, 0, 0, 0, false, 0⟩ 143000 = 1 ∧
        isReady ⟨0, 0, 0, 0, false, 0⟩ 143000 = true) ∧
    getTotalDurationMs = 1000 * introScheduleDurations.sum) := by
  have h : 0 ≤ getElapsedMs ⟨0, 0, 0, 0, false, 0⟩ 143000 := by
    norm_num [getElapsedMs]
  exact ⟨h, getProgress_in_unit_interval_and_saturates ⟨0, 0, 0, 0, false, 0⟩ 143000 h⟩

end ParticleLifeSim
